import Mathlib

/-!
Verification development for the SOP-agents repository: a shallow embedding
of the definition loader/validator (`sop-loader.ts`), the Zod schema
synthesizer (`generateZodSchema`), the discovery/registry builder
(`agents/discovery.ts`), the agent factory cache (`tool-generator.ts`) and
the orchestrator error-mode wrapper (`orchestrator.ts`), together with
theorems settling the specification's claims about them.
-/

namespace SopAgents

/-- Runtime JavaScript values, as produced by the YAML frontmatter parser.
`undefined` doubles as the result of reading an absent object property. -/
inductive JSValue : Type where
  | undefined : JSValue
  | null : JSValue
  | str : String → JSValue
  | num : Int → JSValue
  | bool : Bool → JSValue
  | arr : List JSValue → JSValue
  | obj : List (String × JSValue) → JSValue

/-- JS whitespace characters recognized by `String.prototype.trim`
(ASCII subset; the embedding's definition files stay in ASCII). -/
def isJsWhitespace (c : Char) : Bool :=
  c = ' ' || c = '\t' || c = '\n' || c = '\r' || c = '\x0b' || c = '\x0c'

/-- Model of `String.prototype.trim`: strip leading and trailing whitespace. -/
def jsTrim (s : String) : String :=
  String.mk (((s.data.dropWhile isJsWhitespace).reverse.dropWhile isJsWhitespace).reverse)

/-- Model of `String.prototype.endsWith`. -/
def strEndsWith (s suffix : String) : Bool :=
  suffix.data.isSuffixOf s.data

/-- Property read on a JS object (`fields`): absent keys read as `undefined`. -/
def getField (fields : List (String × JSValue)) (k : String) : JSValue :=
  match fields.find? (fun p => p.1 == k) with
  | some p => p.2
  | none => .undefined

/-- Property read on an arbitrary JS value; non-objects yield `undefined`. -/
def getProp (v : JSValue) (k : String) : JSValue :=
  match v with
  | .obj fields => getField fields k
  | _ => .undefined

/-- `Object.entries`: an object's own enumerable entries; an array's entries
are index-keyed. -/
def objEntries : JSValue → List (String × JSValue)
  | .obj fields => fields
  | .arr xs => ((List.range xs.length).zip xs).map (fun p => (toString p.1, p.2))
  | _ => []

/-- `type` field of an SOP definition (`"agent" | "orchestrator"`). -/
inductive SOPType : Type where
  | agent : SOPType
  | orchestrator : SOPType
deriving DecidableEq, Repr

/-- Validated frontmatter, mirroring the `SOPFrontmatter` interface: the
optional fields keep the raw values the TS code passes through unvalidated. -/
structure SOPFrontmatter : Type where
  name : String
  description : String
  version : Option String
  tools : Option (List JSValue)
  inputs : Option JSValue
  type : SOPType

/-- Frontmatter validation error (`FrontmatterValidationError(filepath, field, reason)`). -/
structure VError : Type where
  filepath : String
  field : String
  reason : String
deriving DecidableEq

/-- The required-string check `validateFrontmatter` applies to `name` and
`description`: missing or null, then non-string or empty after trimming. -/
def requiredNonEmptyString (v : JSValue) : Except String String :=
  match v with
  | .undefined => .error "is required but missing"
  | .null => .error "is required but missing"
  | .str s => if jsTrim s = "" then .error "must be a non-empty string" else .ok s
  | _ => .error "must be a non-empty string"

/-- The `type` field check: absent defaults to agent; a present value must be
the string "agent" or "orchestrator". -/
def parseType : JSValue → Except String SOPType
  | .undefined => .ok .agent
  | .str s =>
      if s = "agent" then .ok .agent
      else if s = "orchestrator" then .ok .orchestrator
      else .error "must be either \"agent\" or \"orchestrator\""
  | _ => .error "must be either \"agent\" or \"orchestrator\""

/-- `typeof obj.version === "string" ? obj.version : undefined` -/
def optVersion (fields : List (String × JSValue)) : Option String :=
  match getField fields "version" with
  | .str s => some s
  | _ => none

/-- `Array.isArray(obj.tools) ? obj.tools : undefined` (elements kept raw). -/
def optTools (fields : List (String × JSValue)) : Option (List JSValue) :=
  match getField fields "tools" with
  | .arr xs => some xs
  | _ => none

/-- `typeof obj.inputs === "object" && obj.inputs !== null ? obj.inputs : undefined`. -/
def optInputs (fields : List (String × JSValue)) : Option JSValue :=
  match getField fields "inputs" with
  | .obj fs => some (.obj fs)
  | .arr xs => some (.arr xs)
  | _ => none

/-- The field checks of `validateFrontmatter`, applied to an object's fields. -/
def validateObj (fields : List (String × JSValue)) (filepath : String) :
    Except VError SOPFrontmatter :=
  match requiredNonEmptyString (getField fields "name") with
  | .error r => .error ⟨filepath, "name", r⟩
  | .ok nm =>
    match requiredNonEmptyString (getField fields "description") with
    | .error r => .error ⟨filepath, "description", r⟩
    | .ok ds =>
      match parseType (getField fields "type") with
      | .error r => .error ⟨filepath, "type", r⟩
      | .ok ty =>
        .ok { name := nm, description := ds, version := optVersion fields,
              tools := optTools fields, inputs := optInputs fields, type := ty }

/-- `validateFrontmatter(data, filepath)`: non-objects are rejected outright
(in JS, arrays pass the `typeof` test but expose no string keys). -/
def validateFrontmatter (data : JSValue) (filepath : String) :
    Except VError SOPFrontmatter :=
  match data with
  | .obj fields => validateObj fields filepath
  | .arr _ => validateObj [] filepath
  | _ => .error ⟨filepath, "frontmatter", "must be an object"⟩

/-! ## Schema synthesizer (`generateZodSchema`) -/

/-- The base Zod validator a field compiles to. `enumVals` keeps the declared
values raw, as `z.enum` receives them. -/
inductive ZodBase : Type where
  | str : ZodBase
  | num : ZodBase
  | boolean : ZodBase
  | enumVals : List JSValue → ZodBase
  | strList : ZodBase

/-- The synthesized validator of one field: the base validator plus the
`.describe`, `.default` and `.optional` wrappers the code applies, in that
order (so `optional` is outermost, `default` inside it). -/
structure ZodField : Type where
  base : ZodBase
  description : JSValue
  defaultVal : Option JSValue
  optional : Bool

/-- The built-in field: `z.string().describe("The specific task to perform")`. -/
def taskField : ZodField :=
  { base := .str, description := .str "The specific task to perform",
    defaultVal := none, optional := false }

/-- JS-object key update: an existing key is overwritten in place, a new key
is appended (`shape[fieldName] = fieldSchema` on a plain object; also the
semantics of `Map.prototype.set`). -/
def setKey {α : Type} (m : List (String × α)) (k : String) (v : α) :
    List (String × α) :=
  if m.any (fun p => p.1 == k) then
    m.map (fun p => if p.1 == k then (k, v) else p)
  else m ++ [(k, v)]

/-- Key lookup (`Map.prototype.get` / object property read). -/
def lookupKey {α : Type} (m : List (String × α)) (k : String) : Option α :=
  (m.find? (fun p => p.1 == k)).map (fun p => p.2)

/-- The enum branch: `inputDef.values && inputDef.values.length > 0` — under the
declared `values?: string[]` type the values are an array or absent, so the
truthiness test reduces to "is a non-empty array". -/
def enumBase (values : JSValue) : ZodBase :=
  match values with
  | .arr xs => if 0 < xs.length then .enumVals xs else .str
  | _ => .str

/-- The `switch (inputDef.type)` mapping; the final catch-all is the switch's
`default:` branch. -/
def baseOf (d : JSValue) : ZodBase :=
  match getProp d "type" with
  | .str s =>
      if s = "string" then .str
      else if s = "number" then .num
      else if s = "boolean" then .boolean
      else if s = "enum" then enumBase (getProp d "values")
      else if s = "list" then .strList
      else .str
  | _ => .str

/-- Compile one raw input definition to its field validator: description
attached verbatim, default attached when not `undefined`, optional exactly
when `required === false`. -/
def fieldOf (d : JSValue) : ZodField :=
  { base := baseOf d,
    description := getProp d "description",
    defaultVal := match getProp d "default" with
                  | .undefined => none
                  | w => some w,
    optional := match getProp d "required" with
                | .bool false => true
                | _ => false }

/-- `generateZodSchema(inputs?)`: start from the built-in `task` field, then
add each declared field in entry order. -/
def generateZodSchema (inputs : Option (List (String × JSValue))) :
    List (String × ZodField) :=
  let shape : List (String × ZodField) := [("task", taskField)]
  match inputs with
  | none => shape
  | some entries => entries.foldl (fun sh p => setKey sh p.1 (fieldOf p.2)) shape

/-- What a base validator accepts (Zod parse success on a present value);
`z.enum` first requires a string, then membership among the declared values. -/
def baseAccepts : ZodBase → JSValue → Bool
  | .str, .str _ => true
  | .num, .num _ => true
  | .boolean, .bool _ => true
  | .enumVals vs, .str s =>
      vs.any (fun w => match w with | .str t => t = s | _ => false)
  | .strList, .arr xs =>
      xs.all (fun w => match w with | .str _ => true | _ => false)
  | _, _ => false

/-- Parse of a whole field under the wrapper order the code builds
(`optional` outermost, then `default`, then the base): `undefined` input
passes an optional field unchanged, is replaced by the default when one is
declared, and is rejected otherwise; a present value must satisfy the base.
`none` is parse failure. -/
def fieldParse (f : ZodField) (input : JSValue) : Option JSValue :=
  match input with
  | .undefined =>
      if f.optional then some .undefined
      else
        match f.defaultVal with
        | some d => if baseAccepts f.base d then some d else none
        | none => none
  | v => if baseAccepts f.base v then some v else none

/-! ## Loader (`loadSOP`) -/

/-- A definition file as the loader sees it: unreadable, a file whose
frontmatter block the parser rejects, or the parsed (frontmatter, body
content) pair `gray-matter` produces. -/
inductive SOPFile : Type where
  | unreadable : SOPFile
  | parseFailure : String → SOPFile
  | parsed : JSValue → String → SOPFile

/-- The loader/discovery error taxonomy (`errors.ts`). -/
inductive SOPError : Type where
  | fileNotFound : String → SOPError
  | parseError : String → String → SOPError
  | validationError : VError → SOPError
deriving DecidableEq

/-- `error.message` of each error class, as built by the constructors in
`errors.ts`. -/
def SOPError.message : SOPError → String
  | .fileNotFound fp => "SOP file not found: " ++ fp
  | .parseError fp m => "Failed to parse frontmatter in " ++ fp ++ ": " ++ m
  | .validationError e =>
      "Invalid frontmatter in " ++ e.filepath ++ ": " ++ e.field ++ " - " ++ e.reason

/-- A loaded definition (`SOPDefinition`), with the defaults `loadSOP`
applies: version "1.0.0", no tools, empty inputs, kind agent. -/
structure SOPDefinition : Type where
  name : String
  description : String
  version : String
  tools : List JSValue
  inputs : JSValue
  body : String
  filepath : String
  type : SOPType
  zodSchema : List (String × ZodField)

/-- `loadSOP(filepath)` over the file's content: existence check, frontmatter
parse, validation, then assembly of the definition with its defaults and the
trimmed body. -/
def loadSOP (filepath : String) (file : SOPFile) : Except SOPError SOPDefinition :=
  match file with
  | .unreadable => .error (.fileNotFound filepath)
  | .parseFailure msg => .error (.parseError filepath msg)
  | .parsed data content =>
    match validateFrontmatter data filepath with
    | .error e => .error (.validationError e)
    | .ok fm =>
      .ok { name := fm.name
            description := fm.description
            version := fm.version.getD "1.0.0"
            tools := fm.tools.getD []
            inputs := fm.inputs.getD (.obj [])
            body := jsTrim content
            filepath := filepath
            type := fm.type
            zodSchema := generateZodSchema (fm.inputs.map objEntries) }

/-! ## Discovery (`agents/discovery.ts`) -/

/-- One directory entry: a filename and the file behind it. -/
structure DirEntry : Type where
  filename : String
  file : SOPFile

/-- The state of the path handed to discovery: missing, a non-directory, or a
directory with its entries in enumeration order. -/
inductive FS : Type where
  | missing : FS
  | notDir : FS
  | dir : List DirEntry → FS

/-- Errors thrown by discovery itself. -/
inductive DiscoveryError : Type where
  | directoryNotFound : String → DiscoveryError
  | multipleOrchestrators : String → List String → DiscoveryError

/-- Console output the scan produces. -/
inductive LogLine : Type where
  | warnNoFiles : String → LogLine
  | errorLoading : String → String → LogLine
  | warnNameMismatch : String → String → LogLine

/-- `path.join(directory, file)`. -/
def entryPath (directory : String) (e : DirEntry) : String :=
  directory ++ "/" ++ e.filename

/-- `files.filter((file) => file.endsWith(".md"))`. -/
def mdFilter (entries : List DirEntry) : List DirEntry :=
  entries.filter (fun e => strEndsWith e.filename ".md")

/-- `path.basename(p)`: the part after the last separator. -/
def basenameOf (p : String) : String :=
  String.mk ((p.data.reverse.takeWhile (fun c => c ≠ '/')).reverse)

/-- `path.basename(p, ".md")`: basename with a trailing ".md" removed. -/
def basenameStem (p : String) : String :=
  let b := basenameOf p
  if ".md".data.isSuffixOf b.data then String.mk (b.data.take (b.data.length - 3))
  else b

/-- The non-fatal warning `loadSOP` prints when the declared name does not
match the filename stem (only a successfully validated file can warn). -/
def loadSOPLogs (filepath : String) (file : SOPFile) : List LogLine :=
  match file with
  | .parsed data _ =>
    match validateFrontmatter data filepath with
    | .ok fm =>
        if fm.name ≠ basenameStem filepath then [.warnNameMismatch fm.name filepath]
        else []
    | .error _ => []
  | _ => []

/-- Result of a directory scan: the registry built so far and the console
lines emitted. -/
structure DiscoverResult : Type where
  registry : List (String × SOPDefinition)
  logs : List LogLine

/-- One iteration of the `discoverAgents` loop: load the file, register it
unless it is an orchestrator, or log the failure and continue. -/
def discoverStep (d : String) (acc : DiscoverResult) (e : DirEntry) : DiscoverResult :=
  let filepath := entryPath d e
  match loadSOP filepath e.file with
  | .ok sop =>
      { registry := if sop.type = .orchestrator then acc.registry
                    else setKey acc.registry sop.name sop,
        logs := acc.logs ++ loadSOPLogs filepath e.file }
  | .error err =>
      { registry := acc.registry,
        logs := acc.logs ++ [.errorLoading filepath err.message] }

/-- `discoverAgents(directory)`. -/
def discoverAgents (d : String) (fsv : FS) : Except DiscoveryError DiscoverResult :=
  match fsv with
  | .missing => .error (.directoryNotFound d)
  | .notDir => .error (.directoryNotFound d)
  | .dir entries =>
    let mdFiles := mdFilter entries
    if mdFiles.isEmpty then .ok { registry := [], logs := [.warnNoFiles d] }
    else .ok (mdFiles.foldl (discoverStep d) { registry := [], logs := [] })

/-- The orchestrator definition loaded from one entry, when the file loads
and has orchestrator kind. -/
def loadedOrch (d : String) (e : DirEntry) : Option SOPDefinition :=
  match loadSOP (entryPath d e) e.file with
  | .ok sop => if sop.type = .orchestrator then some sop else none
  | .error _ => none

/-- Whether an entry contributes to the orchestrator scan. -/
def isOrchEntry (d : String) (e : DirEntry) : Bool :=
  (loadedOrch d e).isSome

/-- The agent definition loaded from one entry, when the file loads and is
not an orchestrator. -/
def loadedAgent (d : String) (e : DirEntry) : Option SOPDefinition :=
  match loadSOP (entryPath d e) e.file with
  | .ok sop => if sop.type = .orchestrator then none else some sop
  | .error _ => none

/-- The console lines one entry contributes to the scan. -/
def entryLogs (d : String) (e : DirEntry) : List LogLine :=
  match loadSOP (entryPath d e) e.file with
  | .ok _ => loadSOPLogs (entryPath d e) e.file
  | .error err => [.errorLoading (entryPath d e) err.message]

/-- The body text of the built-in default orchestrator
(`default-orchestrator.ts`), reproduced verbatim. -/
def DEFAULT_ORCHESTRATOR_BODY : String :=
  "# Task Orchestrator\n\n## Overview\n\nYou are a master orchestrator responsible for coordinating multiple specialized agents to complete complex tasks.\n\n## Steps\n\n### 1. Analyze Request\n\nParse the incoming request to understand what needs to be accomplished.\n\n**Constraints:**\n- You MUST identify all subtasks required to fulfill the request\n- You SHOULD break complex requests into smaller, manageable tasks\n\n### 2. Delegate to Agents\n\nInvoke the appropriate specialized agents for each subtask.\n\n**Constraints:**\n- You MUST choose the most appropriate agent for each subtask\n- You MUST pass relevant context between agent calls\n- You SHOULD handle agent errors gracefully\n- You MUST ask the user for more detail if you do not have sufficient inputs for agent execution\n\n### 3. Synthesize Results\n\nCombine outputs from all agents into a coherent response.\n\n**Constraints:**\n- You MUST include the actual content produced by agents (poems, jokes, stories, etc.) in your response because the user wants to see the content, not just a description of it\n- You MUST provide a unified response that addresses the original request\n- You MAY add brief context before or after the agent's output"

/-- The built-in fallback orchestrator definition (`DEFAULT_ORCHESTRATOR`). -/
def DEFAULT_ORCHESTRATOR : SOPDefinition :=
  { name := "orchestrator"
    description := "Master orchestrator that delegates tasks to specialized agents"
    version := "1.0.0"
    type := .orchestrator
    tools := []
    inputs := .obj []
    filepath := "<built-in>"
    zodSchema := [("task",
      { base := .str, description := .str "The task to perform",
        defaultVal := none, optional := false })]
    body := DEFAULT_ORCHESTRATOR_BODY }

/-- One iteration of the `findOrchestrator` loop: collect orchestrator
definitions and their file paths, skipping files that fail to load. -/
def orchScanStep (d : String) (acc : List SOPDefinition × List String) (e : DirEntry) :
    List SOPDefinition × List String :=
  match loadSOP (entryPath d e) e.file with
  | .ok sop =>
      if sop.type = .orchestrator then (acc.1 ++ [sop], acc.2 ++ [entryPath d e])
      else acc
  | .error _ => acc

/-- `findOrchestrator(directory)` (the canonical `agents/discovery.ts`
variant, which falls back to the built-in default when none is found). -/
def findOrchestrator (d : String) (fsv : FS) : Except DiscoveryError SOPDefinition :=
  match fsv with
  | .missing => .error (.directoryNotFound d)
  | .notDir => .error (.directoryNotFound d)
  | .dir entries =>
    let scanned := (mdFilter entries).foldl (orchScanStep d) ([], [])
    if 1 < scanned.1.length then .error (.multipleOrchestrators d scanned.2)
    else
      match scanned.1 with
      | [o] => .ok o
      | _ => .ok DEFAULT_ORCHESTRATOR

/-! ## Agent factory cache (`tool-generator.ts`) -/

/-- A live `Agent` instance; `id` models JS object identity (each `new
Agent(...)` yields a fresh object). -/
structure AgentInstance : Type where
  id : Nat
  systemPrompt : String
deriving DecidableEq

/-- The factory's shared mutable state: the name-keyed cache plus the supply
of fresh instance identities. -/
structure CacheState : Type where
  cache : List (String × AgentInstance)
  nextId : Nat

/-- `getOrCreateAgent(sop)`: return the cached instance for the name, or
construct a fresh one, cache it and return it. -/
def getOrCreateAgent (sop : SOPDefinition) (st : CacheState) :
    AgentInstance × CacheState :=
  match lookupKey st.cache sop.name with
  | some a => (a, st)
  | none =>
    let a : AgentInstance := { id := st.nextId, systemPrompt := sop.body }
    (a, { cache := setKey st.cache sop.name a, nextId := st.nextId + 1 })

/-- `clearCache()`: drop every cached instance. -/
def clearCache (st : CacheState) : CacheState :=
  { cache := [], nextId := st.nextId }

/-- `getOrCreateAgent` iterated k times against the evolving cache state,
collecting the returned instances. -/
def iterateGetOrCreate (sop : SOPDefinition) : Nat → CacheState → List AgentInstance × CacheState
  | 0, st => ([], st)
  | Nat.succ k, st =>
      let r := getOrCreateAgent sop st
      let rest := iterateGetOrCreate sop k r.2
      (r.1 :: rest.1, rest.2)

/-- Well-formedness of a cache state: cached identities are below the fresh
supply, and entries have pairwise distinct names and identities. Every state
reachable from the initial empty cache satisfies it. -/
def CacheWF (st : CacheState) : Prop :=
  (∀ p ∈ st.cache, p.2.id < st.nextId) ∧
  st.cache.Pairwise (fun p q => p.1 ≠ q.1 ∧ p.2.id ≠ q.2.id)

/-! ## Orchestrator error-mode wrapper (`orchestrator.ts`) -/

/-- The configured error mode. -/
inductive ErrorMode : Type where
  | failFast : ErrorMode
  | continueMode : ErrorMode

/-- A thrown JS error, reduced to what the wrapper reads. -/
structure JSError : Type where
  name : String
  message : String
deriving DecidableEq

/-- `AgentInvocationError(agentName, task, originalError)` as built in
`errors.ts`: the message names the agent, the context carries the task. -/
structure AgentInvocationError : Type where
  agentName : String
  task : JSValue
  message : String
  code : String

def mkAgentInvocationError (agentName : String) (task : JSValue) (orig : JSError) :
    AgentInvocationError :=
  { agentName := agentName, task := task,
    message := "Agent \x27" ++ agentName ++ "\x27 failed: " ++ orig.message,
    code := "AGENT_INVOCATION_ERROR" }

/-- `originalTool.name.replace(/^agent_/, "")`. -/
def stripAgentPre (s : String) : String :=
  if "agent_".data.isPrefixOf s.data then String.mk (s.data.drop 6) else s

/-- JSON string escaping as `JSON.stringify` performs it on the common
characters appearing here. -/
def jsonEscapeChar (c : Char) : String :=
  if c = '"' then "\\\"" else if c = '\\' then "\\\\"
  else if c = '\n' then "\\n" else if c = '\t' then "\\t"
  else if c = '\r' then "\\r" else String.singleton c

def jsonStr (s : String) : String :=
  "\"" ++ String.join (s.data.map jsonEscapeChar) ++ "\""

/-- The structured failure payload continue mode returns in place of a
result: `JSON.stringify(\x7b success: false, agentName, error: \x7b message,
code \x7d \x7d)`. -/
def failurePayload (agentName msg : String) : String :=
  "\x7b\"success\":false,\"agentName\":" ++ jsonStr agentName ++
    ",\"error\":\x7b\"message\":" ++ jsonStr msg ++
    ",\"code\":\"AGENT_INVOCATION_ERROR\"\x7d\x7d"

/-- A generated tool as the wrapper sees it: its name, description and an
invoke that either produces text or throws. -/
structure ToolModel : Type where
  name : String
  description : String
  invoke : List (String × JSValue) → Except JSError String

/-- The wrapped invoke `wrapToolsWithErrorHandling` installs: delegate to the
original tool; on failure either re-raise as `AgentInvocationError`
(fail-fast) or return the structured failure payload (continue). -/
def wrappedInvoke (mode : ErrorMode) (t : ToolModel)
    (input : List (String × JSValue)) : Except AgentInvocationError String :=
  let agentName := stripAgentPre t.name
  let task := getField input "task"
  match t.invoke input with
  | .ok result => .ok result
  | .error e =>
    match mode with
    | .failFast => .error (mkAgentInvocationError agentName task e)
    | .continueMode => .ok (failurePayload agentName e.message)

/-! ## Derived notions used by the statements -/

/-- Repeated JS-object insertion keyed by `f` with values through `g`:
the common shape of registry building and schema building. -/
def keyFold {α β : Type} (f : β → String) (g : β → α) (l : List β)
    (m : List (String × α)) : List (String × α) :=
  l.foldl (fun acc x => setKey acc (f x) (g x)) m

/-- Whether a value fails the required-string check (missing, null,
non-string, or empty after trimming). -/
def badRequiredStringB (v : JSValue) : Bool :=
  match requiredNonEmptyString v with
  | .error _ => true
  | .ok _ => false

/-- Whether a present `type` value is outside the two accepted kinds. -/
def badTypeB (v : JSValue) : Bool :=
  match parseType v with
  | .error _ => true
  | .ok _ => false

/-! ## Concrete fixtures (used by witnesses and counterexamples) -/

def fmAlpha : JSValue :=
  .obj [("name", .str "alpha"), ("description", .str "Agent alpha")]

def fmBeta : JSValue :=
  .obj [("name", .str "beta"), ("description", .str "Agent beta"),
        ("type", .str "agent"), ("version", .str "2.0.0"),
        ("tools", .arr [.str "search"]),
        ("inputs", .obj [("topic", .obj [("type", .str "string"),
                                         ("description", .str "The topic")])])]

def fmOrch1 : JSValue :=
  .obj [("name", .str "orch1"), ("description", .str "First orchestrator"),
        ("type", .str "orchestrator")]

def fmOrch2 : JSValue :=
  .obj [("name", .str "orch2"), ("description", .str "Second orchestrator"),
        ("type", .str "orchestrator")]

def fmDup1 : JSValue :=
  .obj [("name", .str "dup"), ("description", .str "first twin")]

def fmDup2 : JSValue :=
  .obj [("name", .str "dup"), ("description", .str "second twin")]

def fmNoDesc : JSValue := .obj [("name", .str "alpha")]

def entAlpha : DirEntry := ⟨"alpha.md", .parsed fmAlpha "  Alpha body  "⟩
def entBeta : DirEntry := ⟨"beta.md", .parsed fmBeta "Beta body"⟩
def entOrch1 : DirEntry := ⟨"orch1.md", .parsed fmOrch1 "Orchestrate one"⟩
def entOrch2 : DirEntry := ⟨"orch2.md", .parsed fmOrch2 "Orchestrate two"⟩
def entBad : DirEntry := ⟨"bad.md", .parseFailure "unexpected end of stream"⟩
def entDup1 : DirEntry := ⟨"dup.md", .parsed fmDup1 "first body"⟩
def entDup2 : DirEntry := ⟨"dup2.md", .parsed fmDup2 "second body"⟩

def sopDupA : SOPDefinition :=
  { name := "dup", description := "first", version := "1.0.0", tools := [],
    inputs := .obj [], body := "body A", filepath := "sops/a.md", type := .agent,
    zodSchema := generateZodSchema none }

def sopDupB : SOPDefinition :=
  { name := "dup", description := "second", version := "1.0.0", tools := [],
    inputs := .obj [], body := "body B", filepath := "sops/b.md", type := .agent,
    zodSchema := generateZodSchema none }

def sopGamma : SOPDefinition :=
  { name := "gamma", description := "third", version := "1.0.0", tools := [],
    inputs := .obj [], body := "body C", filepath := "sops/c.md", type := .agent,
    zodSchema := generateZodSchema none }

def initCache : CacheState := ⟨[], 0⟩

def toolBoom : ToolModel :=
  { name := "agent_alpha", description := "Agent alpha",
    invoke := fun _ => .error ⟨"Error", "boom"⟩ }

def boomInput : List (String × JSValue) := [("task", .str "do the thing")]

/-- An input spec that declares its own field named "task". -/
def taskOverrideSpec : List (String × JSValue) :=
  [("task", .obj [("type", .str "string"), ("description", .str "overridden"),
                  ("required", .bool false)])]

def enumDef : JSValue :=
  .obj [("type", .str "enum"), ("description", .str "Priority"),
        ("values", .arr [.str "low", .str "high"])]

def enumDefNoValues : JSValue :=
  .obj [("type", .str "enum"), ("description", .str "Priority")]

def optionalDef : JSValue :=
  .obj [("type", .str "string"), ("description", .str "Optional field"),
        ("required", .bool false)]

def defaultDef : JSValue :=
  .obj [("type", .str "number"), ("description", .str "Count"),
        ("default", .num 3)]

/-! ## Association-list lemmas (JS object / `Map` semantics) -/

theorem find?_overwrite_self {α : Type} (m : List (String × α)) (k : String) (v : α)
    (h : m.any (fun p => p.1 == k) = true) :
    (m.map (fun p => if p.1 == k then (k, v) else p)).find? (fun p => p.1 == k) =
      some (k, v) := by
  induction m with
  | nil => simp at h
  | cons p m ih =>
    cases hp : (p.1 == k) with
    | true =>
      rw [List.map_cons, if_pos hp]
      simp [List.find?]
    | false =>
      have h' : m.any (fun p => p.1 == k) = true := by
        simp only [List.any_cons, hp, Bool.false_or] at h
        exact h
      rw [List.map_cons, if_neg (by simp [hp])]
      rw [show List.find? (fun p => p.1 == k)
            (p :: List.map (fun p => if (p.1 == k) = true then (k, v) else p) m) =
          List.find? (fun p => p.1 == k)
            (List.map (fun p => if (p.1 == k) = true then (k, v) else p) m) by
        simp [List.find?, hp]]
      exact ih h'

theorem lookupKey_setKey_self {α : Type} (m : List (String × α)) (k : String) (v : α) :
    lookupKey (setKey m k v) k = some v := by
  unfold setKey lookupKey
  by_cases h : m.any (fun p => p.1 == k) = true
  · rw [if_pos h, find?_overwrite_self m k v h]
    rfl
  · rw [if_neg h, List.find?_append]
    have hnone : m.find? (fun p => p.1 == k) = none := by
      rw [List.find?_eq_none]
      intro p hp hpk
      exact h (List.any_eq_true.mpr ⟨p, hp, hpk⟩)
    rw [hnone]
    simp [List.find?]

theorem find?_overwrite_ne {α : Type} (m : List (String × α)) (k k' : String) (v : α)
    (h : ¬ k' = k) :
    (m.map (fun p => if p.1 == k then (k, v) else p)).find? (fun p => p.1 == k') =
      m.find? (fun p => p.1 == k') := by
  induction m with
  | nil => rfl
  | cons p m ih =>
    cases hp : (p.1 == k) with
    | true =>
      have hk : p.1 = k := eq_of_beq hp
      have h1 : ((k : String) == k') = false :=
        beq_eq_false_iff_ne.mpr (fun hkk => h hkk.symm)
      have h2 : (p.1 == k') = false := by rw [hk]; exact h1
      rw [List.map_cons, if_pos hp]
      simp only [List.find?, h1, h2]
      exact ih
    | false =>
      rw [List.map_cons, if_neg (by simp [hp])]
      cases hq : (p.1 == k') with
      | true => simp only [List.find?, hq]
      | false =>
        simp only [List.find?, hq]
        exact ih

theorem lookupKey_setKey_ne {α : Type} (m : List (String × α)) (k k' : String) (v : α)
    (h : ¬ k' = k) :
    lookupKey (setKey m k v) k' = lookupKey m k' := by
  unfold setKey lookupKey
  by_cases hm : m.any (fun p => p.1 == k) = true
  · rw [if_pos hm, find?_overwrite_ne m k k' v h]
  · rw [if_neg hm, List.find?_append]
    have h1 : ([(k, v)].find? (fun p => p.1 == k')) = none := by
      simp [List.find?, beq_eq_false_iff_ne.mpr (fun hkk => h hkk.symm)]
    rw [h1, Option.or_none]

theorem mem_setKey {α : Type} {m : List (String × α)} {k : String} {v : α} {p : String × α}
    (h : p ∈ setKey m k v) : p = (k, v) ∨ p ∈ m := by
  unfold setKey at h
  by_cases hm : m.any (fun p => p.1 == k) = true
  · rw [if_pos hm] at h
    rcases List.mem_map.mp h with ⟨q, hq, hpq⟩
    by_cases hqk : (q.1 == k) = true
    · rw [if_pos hqk] at hpq
      exact Or.inl hpq.symm
    · rw [if_neg hqk] at hpq
      exact Or.inr (hpq ▸ hq)
  · rw [if_neg hm] at h
    rcases List.mem_append.mp h with h1 | h1
    · exact Or.inr h1
    · exact Or.inl (List.mem_singleton.mp h1)

theorem setKey_of_absent {α : Type} {m : List (String × α)} {k : String} (v : α)
    (h : m.any (fun p => p.1 == k) = false) : setKey m k v = m ++ [(k, v)] := by
  unfold setKey
  rw [if_neg (by simp [h])]

theorem any_eq_false_of_lookup_none {α : Type} {m : List (String × α)} {k : String}
    (h : lookupKey m k = none) : m.any (fun p => p.1 == k) = false := by
  unfold lookupKey at h
  cases hf : m.find? (fun p => p.1 == k) with
  | some p => rw [hf] at h; simp at h
  | none =>
    rw [List.any_eq_false]
    intro p hp
    exact (List.find?_eq_none.mp hf) p hp

theorem lookupKey_mem {α : Type} {m : List (String × α)} {k : String} {v : α}
    (h : lookupKey m k = some v) : (k, v) ∈ m := by
  unfold lookupKey at h
  cases hf : m.find? (fun p => p.1 == k) with
  | none => rw [hf] at h; simp at h
  | some p =>
    rw [hf] at h
    have hp : p ∈ m := List.mem_of_find?_eq_some hf
    have hk' : (p.1 == k) = true :=
      @List.find?_some _ (fun q => q.1 == k) p m hf
    have hk : p.1 = k := eq_of_beq hk'
    have hv : p.2 = v := by simpa using h
    have : p = (k, v) := Prod.ext hk hv
    exact this ▸ hp

theorem keys_setKey {α : Type} (m : List (String × α)) (k : String) (v : α) :
    (setKey m k v).map (fun p => p.1) =
      if m.any (fun p => p.1 == k) = true then m.map (fun p => p.1)
      else m.map (fun p => p.1) ++ [k] := by
  unfold setKey
  by_cases h : m.any (fun p => p.1 == k) = true
  · rw [if_pos h, if_pos h, List.map_map]
    apply List.map_congr_left
    intro p _
    by_cases hp : (p.1 == k) = true
    · simp [hp, (eq_of_beq hp).symm]
    · have hp' : ¬ p.1 = k := fun hh => hp (by rw [hh]; exact beq_self_eq_true k)
      simp [hp, hp']
  · rw [if_neg h, if_neg h, List.map_append]
    rfl

theorem keyFold_nil {α β : Type} (f : β → String) (g : β → α)
    (m : List (String × α)) : keyFold f g [] m = m := rfl

theorem keyFold_cons {α β : Type} (f : β → String) (g : β → α) (x : β) (l : List β)
    (m : List (String × α)) :
    keyFold f g (x :: l) m = keyFold f g l (setKey m (f x) (g x)) := rfl

theorem lookupKey_keyFold {α β : Type} (f : β → String) (g : β → α) (l : List β) :
    ∀ (m : List (String × α)) (n : String),
      lookupKey (keyFold f g l m) n =
        ((l.reverse.find? (fun x => f x == n)).map g).or (lookupKey m n) := by
  induction l with
  | nil => intro m n; simp [keyFold]
  | cons x l ih =>
    intro m n
    rw [keyFold_cons, ih, List.reverse_cons, List.find?_append]
    cases hf : l.reverse.find? (fun x => f x == n) with
    | some y => rfl
    | none =>
      cases hx : (f x == n) with
      | true =>
        have hxn : n = f x := (eq_of_beq hx).symm
        subst hxn
        rw [lookupKey_setKey_self]
        simp [List.find?, hx]
      | false =>
        have hne : ¬ n = f x := fun hh => by
          rw [hh] at hx
          exact absurd hx (by simp [beq_self_eq_true])
        rw [lookupKey_setKey_ne m (f x) n (g x) hne]
        simp [List.find?, hx]

theorem mem_keyFold {α β : Type} (f : β → String) (g : β → α) (l : List β) :
    ∀ (m : List (String × α)) (p : String × α), p ∈ keyFold f g l m →
      p ∈ m ∨ ∃ x, x ∈ l ∧ p = (f x, g x) := by
  induction l with
  | nil => intro m p h; exact Or.inl h
  | cons x l ih =>
    intro m p h
    rw [keyFold_cons] at h
    rcases ih (setKey m (f x) (g x)) p h with h1 | ⟨y, hy, hp⟩
    · rcases mem_setKey h1 with h2 | h2
      · exact Or.inr ⟨x, List.mem_cons_self x l, h2⟩
      · exact Or.inl h2
    · exact Or.inr ⟨y, List.mem_cons_of_mem _ hy, hp⟩

theorem mem_keys_setKey {α : Type} (m : List (String × α)) (k : String) (v : α) (n : String) :
    n ∈ (setKey m k v).map (fun p => p.1) ↔ n = k ∨ n ∈ m.map (fun p => p.1) := by
  rw [keys_setKey]
  by_cases h : m.any (fun p => p.1 == k) = true
  · rw [if_pos h]
    constructor
    · exact Or.inr
    · rintro (rfl | hn)
      · rcases List.any_eq_true.mp h with ⟨p, hp, hpk⟩
        exact List.mem_map.mpr ⟨p, hp, eq_of_beq hpk⟩
      · exact hn
  · rw [if_neg h]
    rw [List.mem_append, List.mem_singleton]
    tauto

theorem keys_keyFold_nodup {α β : Type} (f : β → String) (g : β → α) (l : List β) :
    ∀ m : List (String × α), (m.map (fun p => p.1)).Nodup →
      ((keyFold f g l m).map (fun p => p.1)).Nodup := by
  induction l with
  | nil => intro m h; exact h
  | cons x l ih =>
    intro m h
    rw [keyFold_cons]
    apply ih
    rw [keys_setKey]
    by_cases hx : m.any (fun p => p.1 == f x) = true
    · rw [if_pos hx]; exact h
    · rw [if_neg hx]
      have hnotin : f x ∉ m.map (fun p => p.1) := by
        intro hmem
        rcases List.mem_map.mp hmem with ⟨p, hp, hpk⟩
        exact hx (List.any_eq_true.mpr ⟨p, hp, by rw [hpk]; exact beq_self_eq_true (f x)⟩)
      simp [List.nodup_append, h, hnotin]

theorem mem_keys_keyFold {α β : Type} (f : β → String) (g : β → α) (l : List β) :
    ∀ (m : List (String × α)) (n : String),
      n ∈ (keyFold f g l m).map (fun p => p.1) ↔
        n ∈ m.map (fun p => p.1) ∨ n ∈ l.map f := by
  induction l with
  | nil => intro m n; simp [keyFold]
  | cons x l ih =>
    intro m n
    rw [keyFold_cons, ih, mem_keys_setKey]
    simp only [List.map_cons, List.mem_cons]
    tauto

theorem length_keyFold_nil {α β : Type} (f : β → String) (g : β → α) (l : List β) :
    (keyFold f g l []).length = (l.map f).toFinset.card := by
  have hnd : ((keyFold f g l []).map (fun p => p.1)).Nodup :=
    keys_keyFold_nodup f g l [] (by simp)
  have hset : ((keyFold f g l []).map (fun p => p.1)).toFinset = (l.map f).toFinset := by
    ext n
    simp only [List.mem_toFinset]
    rw [mem_keys_keyFold f g l [] n]
    simp
  calc (keyFold f g l []).length
      = ((keyFold f g l []).map (fun p => p.1)).length := (List.length_map _ _).symm
    _ = ((keyFold f g l []).map (fun p => p.1)).toFinset.card :=
        (List.toFinset_card_of_nodup hnd).symm
    _ = (l.map f).toFinset.card := by rw [hset]

theorem toFinset_card_lt_of_not_nodup {l : List String} (h : ¬ l.Nodup) :
    l.toFinset.card < l.length := by
  have hle : l.dedup.length ≤ l.length := (List.dedup_sublist l).length_le
  rw [List.card_toFinset]
  rcases lt_or_eq_of_le hle with hlt | heq
  · exact hlt
  · exact absurd (((List.dedup_sublist l).eq_of_length heq) ▸ List.nodup_dedup l) h

/-! ## Loader inversion lemmas -/

theorem requiredNonEmptyString_ok {v : JSValue} {s : String}
    (h : requiredNonEmptyString v = .ok s) : v = .str s ∧ ¬ jsTrim s = "" := by
  cases v <;> simp only [requiredNonEmptyString] at h
  case str s' =>
    by_cases ht : jsTrim s' = ""
    · rw [if_pos ht] at h; cases h
    · rw [if_neg ht] at h
      cases h
      exact ⟨rfl, ht⟩
  all_goals cases h

theorem requiredNonEmptyString_error_reason {v : JSValue} {r : String}
    (h : requiredNonEmptyString v = .error r) : ¬ r = "" := by
  cases v <;> simp only [requiredNonEmptyString] at h
  case str s =>
    by_cases ht : jsTrim s = ""
    · rw [if_pos ht] at h; cases h; decide
    · rw [if_neg ht] at h; cases h
  all_goals (cases h; decide)

theorem parseType_error_reason {v : JSValue} {r : String}
    (h : parseType v = .error r) : ¬ r = "" := by
  cases v <;> simp only [parseType] at h
  case str s =>
    by_cases h1 : s = "agent"
    · rw [if_pos h1] at h; cases h
    · rw [if_neg h1] at h
      by_cases h2 : s = "orchestrator"
      · rw [if_pos h2] at h; cases h
      · rw [if_neg h2] at h; cases h; decide
  case undefined => cases h
  all_goals (cases h; decide)

theorem validateObj_ok_inv {fields : List (String × JSValue)} {fp : String}
    {fm : SOPFrontmatter} (h : validateObj fields fp = .ok fm) :
    getField fields "name" = .str fm.name
    ∧ ¬ jsTrim fm.name = ""
    ∧ getField fields "description" = .str fm.description
    ∧ fm.version = optVersion fields
    ∧ fm.tools = optTools fields
    ∧ fm.inputs = optInputs fields
    ∧ parseType (getField fields "type") = .ok fm.type := by
  unfold validateObj at h
  cases h1 : requiredNonEmptyString (getField fields "name") with
  | error r => rw [h1] at h; cases h
  | ok nm =>
    rw [h1] at h
    cases h2 : requiredNonEmptyString (getField fields "description") with
    | error r => rw [h2] at h; cases h
    | ok ds =>
      rw [h2] at h
      cases h3 : parseType (getField fields "type") with
      | error r => rw [h3] at h; cases h
      | ok ty =>
        rw [h3] at h
        cases h
        obtain ⟨hn1, hn2⟩ := requiredNonEmptyString_ok h1
        obtain ⟨hd1, _⟩ := requiredNonEmptyString_ok h2
        exact ⟨hn1, hn2, hd1, rfl, rfl, rfl, rfl⟩

theorem loadSOP_ok_inv {fp content : String} {data : JSValue} {sop : SOPDefinition}
    (h : loadSOP fp (.parsed data content) = .ok sop) :
    ∃ fm, validateFrontmatter data fp = .ok fm
      ∧ sop = { name := fm.name, description := fm.description,
                version := fm.version.getD "1.0.0", tools := fm.tools.getD [],
                inputs := fm.inputs.getD (.obj []), body := jsTrim content,
                filepath := fp, type := fm.type,
                zodSchema := generateZodSchema (fm.inputs.map objEntries) } := by
  cases hv : validateFrontmatter data fp with
  | error e => simp [loadSOP, hv] at h
  | ok fm =>
    simp only [loadSOP, hv] at h
    exact ⟨fm, rfl, (Except.ok.inj h).symm⟩

/-! ## Scan fold characterizations -/

theorem orchScan_foldl (d : String) (l : List DirEntry) :
    ∀ acc : List SOPDefinition × List String,
      l.foldl (orchScanStep d) acc =
        (acc.1 ++ l.filterMap (loadedOrch d),
         acc.2 ++ (l.filter (isOrchEntry d)).map (entryPath d)) := by
  induction l with
  | nil => intro acc; simp
  | cons e l ih =>
    intro acc
    rw [List.foldl_cons, ih]
    cases hload : loadSOP (entryPath d e) e.file with
    | ok sop =>
      by_cases ht : sop.type = .orchestrator
      · simp [orchScanStep, hload, ht, loadedOrch, isOrchEntry]
      · simp [orchScanStep, hload, ht, loadedOrch, isOrchEntry]
    | error err => simp [orchScanStep, hload, loadedOrch, isOrchEntry]

theorem discover_foldl (d : String) (l : List DirEntry) :
    ∀ acc : DiscoverResult,
      l.foldl (discoverStep d) acc =
        { registry := keyFold (fun s => s.name) (fun s => s)
            (l.filterMap (loadedAgent d)) acc.registry,
          logs := acc.logs ++ l.flatMap (entryLogs d) } := by
  induction l with
  | nil => intro acc; simp [keyFold]
  | cons e l ih =>
    intro acc
    rw [List.foldl_cons, ih]
    cases hload : loadSOP (entryPath d e) e.file with
    | ok sop =>
      by_cases ht : sop.type = .orchestrator
      · simp [discoverStep, hload, ht, loadedAgent, entryLogs]
      · simp [discoverStep, hload, ht, loadedAgent, entryLogs, keyFold_cons]
    | error err => simp [discoverStep, hload, loadedAgent, entryLogs]

theorem loadedAgent_eq_some {d : String} {e : DirEntry} {s : SOPDefinition} :
    loadedAgent d e = some s ↔
      loadSOP (entryPath d e) e.file = .ok s ∧ ¬ s.type = .orchestrator := by
  unfold loadedAgent
  cases hload : loadSOP (entryPath d e) e.file with
  | ok sop =>
    change (if sop.type = SOPType.orchestrator then none else some sop) = some s ↔ _
    by_cases ht : sop.type = .orchestrator
    · rw [if_pos ht]
      constructor
      · intro hcc; cases hcc
      · rintro ⟨h1, h2⟩; cases h1; exact absurd ht h2
    · rw [if_neg ht]
      constructor
      · intro hcc; cases hcc; exact ⟨rfl, ht⟩
      · rintro ⟨h1, _⟩; cases h1; rfl
  | error err =>
    change (none : Option SOPDefinition) = some s ↔ _
    constructor
    · intro hcc; cases hcc
    · rintro ⟨h1, _⟩; cases h1

/-! ## Cache lemmas -/

theorem getOrCreateAgent_stable (sop : SOPDefinition) (st : CacheState) :
    getOrCreateAgent sop (getOrCreateAgent sop st).2 = getOrCreateAgent sop st := by
  unfold getOrCreateAgent
  cases hl : lookupKey st.cache sop.name with
  | some a => simp [hl]
  | none => simp [hl, lookupKey_setKey_self]

theorem getOrCreateAgent_hit {sop : SOPDefinition} {st : CacheState} {a : AgentInstance}
    (h : lookupKey st.cache sop.name = some a) :
    getOrCreateAgent sop st = (a, st) := by
  unfold getOrCreateAgent
  rw [h]

theorem getOrCreateAgent_miss {sop : SOPDefinition} {st : CacheState}
    (h : lookupKey st.cache sop.name = none) :
    getOrCreateAgent sop st =
      (AgentInstance.mk st.nextId sop.body,
       CacheState.mk (setKey st.cache sop.name (AgentInstance.mk st.nextId sop.body))
         (st.nextId + 1)) := by
  unfold getOrCreateAgent
  rw [h]

theorem cacheWF_getOrCreate (sop : SOPDefinition) (st : CacheState) (h : CacheWF st) :
    CacheWF (getOrCreateAgent sop st).2 := by
  cases hl : lookupKey st.cache sop.name with
  | some a =>
    rw [getOrCreateAgent_hit hl]
    exact h
  | none =>
    have habs : st.cache.any (fun p => p.1 == sop.name) = false :=
      any_eq_false_of_lookup_none hl
    rw [getOrCreateAgent_miss hl]
    show CacheWF (CacheState.mk
      (setKey st.cache sop.name (AgentInstance.mk st.nextId sop.body)) (st.nextId + 1))
    rw [CacheWF, setKey_of_absent _ habs]
    constructor
    · intro p hp
      rcases List.mem_append.mp hp with h1 | h1
      · exact Nat.lt_succ_of_lt (h.1 p h1)
      · rw [List.mem_singleton.mp h1]
        exact Nat.lt_succ_self _
    · rw [List.pairwise_append]
      refine ⟨h.2, List.pairwise_singleton _ _, ?_⟩
      intro p hp q hq
      rw [List.mem_singleton.mp hq]
      constructor
      · intro hk
        have := (List.any_eq_false.mp habs) p hp
        exact this (by rw [hk]; exact beq_self_eq_true _)
      · intro hid
        exact absurd (hid ▸ h.1 p hp) (Nat.lt_irrefl _)

theorem cached_ids_distinct {st : CacheState} (h : CacheWF st)
    {k1 k2 : String} {a1 a2 : AgentInstance}
    (h1 : lookupKey st.cache k1 = some a1) (h2 : lookupKey st.cache k2 = some a2)
    (hk : ¬ k1 = k2) : ¬ a1.id = a2.id := by
  have hm1 : (k1, a1) ∈ st.cache := lookupKey_mem h1
  have hm2 : (k2, a2) ∈ st.cache := lookupKey_mem h2
  have hsym : Symmetric (fun p q : String × AgentInstance => p.1 ≠ q.1 ∧ p.2.id ≠ q.2.id) := by
    intro p q hpq
    exact ⟨fun hh => hpq.1 hh.symm, fun hh => hpq.2 hh.symm⟩
  have hne : (k1, a1) ≠ (k2, a2) := by
    intro hh
    exact hk (congrArg Prod.fst hh)
  have := List.Pairwise.forall hsym h.2 hm1 hm2 hne
  exact this.2

theorem getOrCreateAgent_distinct_names (d1 d2 : SOPDefinition) (st : CacheState)
    (hw : CacheWF st) (hn : ¬ d1.name = d2.name) :
    ¬ (getOrCreateAgent d2 (getOrCreateAgent d1 st).2).1 = (getOrCreateAgent d1 st).1 := by
  intro heq
  have hn2 : ¬ d2.name = d1.name := fun hh => hn hh.symm
  cases hl1 : lookupKey st.cache d1.name with
  | some a1 =>
    rw [getOrCreateAgent_hit hl1] at heq
    have heq' : (getOrCreateAgent d2 st).1 = a1 := heq
    have hbound : a1.id < st.nextId := hw.1 (d1.name, a1) (lookupKey_mem hl1)
    cases hl2 : lookupKey st.cache d2.name with
    | some a2 =>
      have h2' : (getOrCreateAgent d2 st).1 = a2 := by rw [getOrCreateAgent_hit hl2]
      exact cached_ids_distinct hw hl2 hl1 hn2
        (congrArg AgentInstance.id (h2'.symm.trans heq'))
    | none =>
      have h2' : (getOrCreateAgent d2 st).1 = AgentInstance.mk st.nextId d2.body := by
        rw [getOrCreateAgent_miss hl2]
      have : st.nextId = a1.id :=
        congrArg AgentInstance.id (h2'.symm.trans heq')
      rw [this] at hbound
      exact Nat.lt_irrefl _ hbound
  | none =>
    rw [getOrCreateAgent_miss hl1] at heq
    have heq' : (getOrCreateAgent d2 (CacheState.mk
        (setKey st.cache d1.name (AgentInstance.mk st.nextId d1.body))
        (st.nextId + 1))).1 = AgentInstance.mk st.nextId d1.body := heq
    have hlk : lookupKey (setKey st.cache d1.name (AgentInstance.mk st.nextId d1.body))
        d2.name = lookupKey st.cache d2.name :=
      lookupKey_setKey_ne st.cache d1.name d2.name _ hn2
    cases hl2 : lookupKey st.cache d2.name with
    | some a2 =>
      have hhit : lookupKey (CacheState.mk
          (setKey st.cache d1.name (AgentInstance.mk st.nextId d1.body))
          (st.nextId + 1)).cache d2.name = some a2 := by
        rw [show (CacheState.mk (setKey st.cache d1.name
              (AgentInstance.mk st.nextId d1.body)) (st.nextId + 1)).cache =
            setKey st.cache d1.name (AgentInstance.mk st.nextId d1.body) from rfl,
          hlk, hl2]
      have h2' : (getOrCreateAgent d2 (CacheState.mk
          (setKey st.cache d1.name (AgentInstance.mk st.nextId d1.body))
          (st.nextId + 1))).1 = a2 := by
        rw [getOrCreateAgent_hit hhit]
      have hbound : a2.id < st.nextId := hw.1 (d2.name, a2) (lookupKey_mem hl2)
      have : a2.id = st.nextId :=
        congrArg AgentInstance.id (h2'.symm.trans heq')
      rw [this] at hbound
      exact Nat.lt_irrefl _ hbound
    | none =>
      have hmiss : lookupKey (CacheState.mk
          (setKey st.cache d1.name (AgentInstance.mk st.nextId d1.body))
          (st.nextId + 1)).cache d2.name = none := by
        rw [show (CacheState.mk (setKey st.cache d1.name
              (AgentInstance.mk st.nextId d1.body)) (st.nextId + 1)).cache =
            setKey st.cache d1.name (AgentInstance.mk st.nextId d1.body) from rfl,
          hlk, hl2]
      have h2' : (getOrCreateAgent d2 (CacheState.mk
          (setKey st.cache d1.name (AgentInstance.mk st.nextId d1.body))
          (st.nextId + 1))).1 = AgentInstance.mk (st.nextId + 1) d2.body := by
        rw [getOrCreateAgent_miss hmiss]
      have : st.nextId + 1 = st.nextId :=
        congrArg AgentInstance.id (h2'.symm.trans heq')
      exact Nat.succ_ne_self _ this

theorem iterateGetOrCreate_all_eq (sop : SOPDefinition) :
    ∀ (k : Nat) (st : CacheState) (a : AgentInstance),
      a ∈ (iterateGetOrCreate sop k st).1 → a = (getOrCreateAgent sop st).1 := by
  intro k
  induction k with
  | zero => intro st a h; simp [iterateGetOrCreate] at h
  | succ k ih =>
    intro st a h
    simp only [iterateGetOrCreate, List.mem_cons] at h
    rcases h with h | h
    · exact h
    · have := ih (getOrCreateAgent sop st).2 a h
      rw [this, getOrCreateAgent_stable]

/-! ## Claim theorems -/

/-- C1: For every existing directory, coordinator resolution
(`findOrchestrator`) returns exactly one coordinator definition: if zero
coordinator-kind definitions load from the directory's files it returns the
built-in fallback `DEFAULT_ORCHESTRATOR`; if exactly one loads it returns
that definition; if two or more load it fails with
`MultipleOrchestratorsError` whose payload lists every matching file path. -/
theorem C1_findOrchestrator_trichotomy (d : String) (entries : List DirEntry) :
    ((mdFilter entries).filterMap (loadedOrch d) = [] →
        findOrchestrator d (.dir entries) = .ok DEFAULT_ORCHESTRATOR)
    ∧ (∀ o : SOPDefinition, (mdFilter entries).filterMap (loadedOrch d) = [o] →
        findOrchestrator d (.dir entries) = .ok o)
    ∧ (2 ≤ ((mdFilter entries).filterMap (loadedOrch d)).length →
        findOrchestrator d (.dir entries) =
          .error (.multipleOrchestrators d
            (((mdFilter entries).filter (isOrchEntry d)).map (entryPath d)))) := by
  have hscan := orchScan_foldl d (mdFilter entries) ([], [])
  refine ⟨?_, ?_, ?_⟩
  · intro h0
    simp [findOrchestrator, hscan, h0]
  · intro o h1
    simp [findOrchestrator, hscan, h1]
  · intro h2
    have hlt : 1 < ((mdFilter entries).filterMap (loadedOrch d)).length := h2
    simp [findOrchestrator, hscan, hlt]

/-- Witness for C1: a directory with two coordinator files hits the
`MultipleOrchestratorsError` branch, one with none hits the fallback branch,
and one with exactly one returns it. -/
theorem C1_witness :
    2 ≤ ((mdFilter [entOrch1, entOrch2]).filterMap (loadedOrch "sops")).length
    ∧ findOrchestrator "sops" (.dir [entOrch1, entOrch2]) =
        .error (.multipleOrchestrators "sops"
          (((mdFilter [entOrch1, entOrch2]).filter (isOrchEntry "sops")).map
            (entryPath "sops")))
    ∧ findOrchestrator "sops" (.dir [entAlpha]) = .ok DEFAULT_ORCHESTRATOR := by
  refine ⟨by decide, ?_, ?_⟩
  · exact (C1_findOrchestrator_trichotomy "sops" [entOrch1, entOrch2]).2.2 (by decide)
  · exact (C1_findOrchestrator_trichotomy "sops" [entAlpha]).1 (by rfl)

/-- C2: For every wrapped capability invocation that fails, fail-fast mode
re-raises the failure as an `AgentInvocationError` naming the failing
capability (the tool name stripped of its `agent_` prefix) and carrying the
original task text, while continue mode propagates no exception: it returns
the structured failure payload (capability name, error message, error code
`AGENT_INVOCATION_ERROR`) in place of a normal result, so the wrapped invoke
always completes successfully. -/
theorem C2_wrappedInvoke_error_modes (t : ToolModel) (input : List (String × JSValue))
    (e : JSError) (h : t.invoke input = .error e) :
    wrappedInvoke .failFast t input =
        .error (mkAgentInvocationError (stripAgentPre t.name) (getField input "task") e)
    ∧ wrappedInvoke .continueMode t input =
        .ok (failurePayload (stripAgentPre t.name) e.message)
    ∧ (∀ input' : List (String × JSValue),
        ∃ s : String, wrappedInvoke .continueMode t input' = .ok s) := by
  refine ⟨?_, ?_, ?_⟩
  · simp [wrappedInvoke, h]
  · simp [wrappedInvoke, h]
  · intro input'
    cases h' : t.invoke input' with
    | ok s => exact ⟨s, by simp [wrappedInvoke, h']⟩
    | error e' =>
      exact ⟨failurePayload (stripAgentPre t.name) e'.message, by simp [wrappedInvoke, h']⟩

/-- Witness for C2: a tool whose invocation always throws "boom". -/
theorem C2_witness :
    toolBoom.invoke boomInput = .error ⟨"Error", "boom"⟩
    ∧ wrappedInvoke .failFast toolBoom boomInput =
        .error (mkAgentInvocationError "alpha" (.str "do the thing") ⟨"Error", "boom"⟩)
    ∧ wrappedInvoke .continueMode toolBoom boomInput =
        .ok (failurePayload "alpha" "boom") := by
  have h := C2_wrappedInvoke_error_modes toolBoom boomInput ⟨"Error", "boom"⟩ rfl
  exact ⟨rfl, h.1, h.2.1⟩

/-- C3: For every existing directory, `discoverAgents` never aborts: it
returns a registry whose entries are exactly the loadable agent-kind
definitions keyed by their own names — every entry comes from a loadable
non-coordinator file and is keyed by its definition's name, no
coordinator-kind definition is included, every loadable agent-kind
definition's name is present — and a load failure of any single file is
logged with the offending path while the remaining files are still
processed. -/
theorem C3_discoverAgents_spec (d : String) (entries : List DirEntry) :
    ∃ res : DiscoverResult, discoverAgents d (.dir entries) = .ok res
    ∧ (∀ p ∈ res.registry, ¬ p.2.type = .orchestrator ∧ p.1 = p.2.name ∧
        ∃ e ∈ mdFilter entries, loadSOP (entryPath d e) e.file = .ok p.2)
    ∧ (∀ e ∈ mdFilter entries, ∀ sop : SOPDefinition,
        loadSOP (entryPath d e) e.file = .ok sop → ¬ sop.type = .orchestrator →
        ∃ sop' : SOPDefinition, lookupKey res.registry sop.name = some sop'
          ∧ sop'.name = sop.name ∧ ¬ sop'.type = .orchestrator)
    ∧ (∀ e ∈ mdFilter entries, ∀ err : SOPError,
        loadSOP (entryPath d e) e.file = .error err →
        LogLine.errorLoading (entryPath d e) err.message ∈ res.logs) := by
  by_cases hemp : (mdFilter entries).isEmpty = true
  · refine ⟨{ registry := [], logs := [.warnNoFiles d] }, ?_, ?_, ?_, ?_⟩
    · simp [discoverAgents, hemp]
    · intro p hp
      simp at hp
    · intro e he
      rw [List.isEmpty_iff.mp hemp] at he
      simp at he
    · intro e he
      rw [List.isEmpty_iff.mp hemp] at he
      simp at he
  · have hres : discoverAgents d (.dir entries) =
        .ok ((mdFilter entries).foldl (discoverStep d) { registry := [], logs := [] }) := by
      simp [discoverAgents, hemp]
    rw [discover_foldl d (mdFilter entries) { registry := [], logs := [] }] at hres
    refine ⟨_, hres, ?_, ?_, ?_⟩
    · intro p hp
      simp only at hp
      rcases mem_keyFold _ _ _ _ _ hp with h1 | ⟨s, hs, hps⟩
      · simp at h1
      · rcases List.mem_filterMap.mp hs with ⟨e, he, hse⟩
        obtain ⟨hload, htype⟩ := loadedAgent_eq_some.mp hse
        subst hps
        exact ⟨htype, rfl, e, he, hload⟩
    · intro e he sop hload htype
      have hmem : sop ∈ (mdFilter entries).filterMap (loadedAgent d) :=
        List.mem_filterMap.mpr ⟨e, he, loadedAgent_eq_some.mpr ⟨hload, htype⟩⟩
      have hlk := lookupKey_keyFold (fun s : SOPDefinition => s.name) (fun s => s)
        ((mdFilter entries).filterMap (loadedAgent d)) [] sop.name
      cases hf : ((mdFilter entries).filterMap (loadedAgent d)).reverse.find?
          (fun s => s.name == sop.name) with
      | none =>
        exfalso
        have : ∃ x, x ∈ ((mdFilter entries).filterMap (loadedAgent d)).reverse
            ∧ (x.name == sop.name) = true :=
          ⟨sop, List.mem_reverse.mpr hmem, beq_self_eq_true _⟩
        have hsome := List.find?_isSome.mpr this
        rw [hf] at hsome
        cases hsome
      | some sop' =>
        have hname : sop'.name = sop.name :=
          eq_of_beq (@List.find?_some _ (fun s => s.name == sop.name) sop' _ hf)
        have hmem' : sop' ∈ (mdFilter entries).filterMap (loadedAgent d) :=
          List.mem_reverse.mp (List.mem_of_find?_eq_some hf)
        rcases List.mem_filterMap.mp hmem' with ⟨e', _, hse'⟩
        obtain ⟨_, htype'⟩ := loadedAgent_eq_some.mp hse'
        refine ⟨sop', ?_, hname, htype'⟩
        show lookupKey (keyFold (fun s : SOPDefinition => s.name) (fun s => s)
          ((mdFilter entries).filterMap (loadedAgent d)) []) sop.name = some sop'
        rw [hlk, hf]
        simp [lookupKey]
    · intro e he err hload
      show _ ∈ ([] : List LogLine) ++ (mdFilter entries).flatMap (entryLogs d)
      simp only [List.nil_append, List.mem_flatMap]
      exact ⟨e, he, by simp [entryLogs, hload]⟩

/-- Witness for C3: a directory with one agent file, one corrupt file and
one coordinator file; the agent is keyed in the registry, the corrupt file's
failure is logged with its path. -/
theorem C3_witness :
    ∃ res : DiscoverResult, discoverAgents "sops" (.dir [entAlpha, entBad, entOrch1]) = .ok res
    ∧ (∃ sop' : SOPDefinition, lookupKey res.registry "alpha" = some sop'
        ∧ sop'.name = "alpha" ∧ ¬ sop'.type = .orchestrator)
    ∧ LogLine.errorLoading "sops/bad.md"
        (SOPError.parseError "sops/bad.md" "unexpected end of stream").message ∈ res.logs := by
  obtain ⟨res, hres, _, hb, hc⟩ := C3_discoverAgents_spec "sops" [entAlpha, entBad, entOrch1]
  have hmd : mdFilter [entAlpha, entBad, entOrch1] = [entAlpha, entBad, entOrch1] := rfl
  refine ⟨res, hres, ?_, ?_⟩
  · exact hb entAlpha (by rw [hmd]; exact List.mem_cons_self _ _)
      { name := "alpha", description := "Agent alpha", version := "1.0.0",
        tools := [], inputs := .obj [], body := "Alpha body",
        filepath := "sops/alpha.md", type := .agent,
        zodSchema := generateZodSchema none }
      rfl (by decide)
  · exact hc entBad
      (by rw [hmd]; exact List.mem_cons_of_mem _ (List.mem_cons_self _ _))
      (SOPError.parseError "sops/bad.md" "unexpected end of stream") rfl

/-- C4: For every definition file whose metadata lacks a name or a
description (or has one of the wrong shape or empty after trimming), or has
a kind (`type`) field whose value is outside the set of the two accepted
kinds, loading fails with a validation error that names an offending field
(`name`, `description` or `type`) — a field actually violating its rule —
and carries a non-empty reason. -/
theorem C4_validation_errors (fp content : String) (fields : List (String × JSValue))
    (h : badRequiredStringB (getField fields "name") = true
       ∨ badRequiredStringB (getField fields "description") = true
       ∨ badTypeB (getField fields "type") = true) :
    ∃ e : VError, loadSOP fp (.parsed (.obj fields) content) = .error (.validationError e)
      ∧ e.filepath = fp ∧ ¬ e.reason = ""
      ∧ ((e.field = "name" ∧ badRequiredStringB (getField fields "name") = true)
         ∨ (e.field = "description" ∧ badRequiredStringB (getField fields "description") = true)
         ∨ (e.field = "type" ∧ badTypeB (getField fields "type") = true)) := by
  cases h1 : requiredNonEmptyString (getField fields "name") with
  | error r =>
    refine ⟨⟨fp, "name", r⟩, ?_, rfl, requiredNonEmptyString_error_reason h1, ?_⟩
    · simp [loadSOP, validateFrontmatter, validateObj, h1]
    · exact Or.inl ⟨rfl, by simp [badRequiredStringB, h1]⟩
  | ok nm =>
    cases h2 : requiredNonEmptyString (getField fields "description") with
    | error r =>
      refine ⟨⟨fp, "description", r⟩, ?_, rfl, requiredNonEmptyString_error_reason h2, ?_⟩
      · simp [loadSOP, validateFrontmatter, validateObj, h1, h2]
      · exact Or.inr (Or.inl ⟨rfl, by simp [badRequiredStringB, h2]⟩)
    | ok ds =>
      cases h3 : parseType (getField fields "type") with
      | error r =>
        refine ⟨⟨fp, "type", r⟩, ?_, rfl, parseType_error_reason h3, ?_⟩
        · simp [loadSOP, validateFrontmatter, validateObj, h1, h2, h3]
        · exact Or.inr (Or.inr ⟨rfl, by simp [badTypeB, h3]⟩)
      | ok ty =>
        exfalso
        rcases h with hbad | hbad | hbad
        · rw [badRequiredStringB, h1] at hbad; cases hbad
        · rw [badRequiredStringB, h2] at hbad; cases hbad
        · rw [badTypeB, h3] at hbad; cases hbad

/-- Witness for C4: a file whose metadata lacks a description fails with a
validation error naming the `description` field. -/
theorem C4_witness :
    badRequiredStringB (getField [("name", JSValue.str "alpha")] "description") = true
    ∧ ∃ e : VError,
        loadSOP "sops/alpha.md" (.parsed fmNoDesc "Body") = .error (.validationError e)
        ∧ e.filepath = "sops/alpha.md" ∧ ¬ e.reason = ""
        ∧ ((e.field = "name"
              ∧ badRequiredStringB (getField [("name", JSValue.str "alpha")] "name") = true)
           ∨ (e.field = "description"
              ∧ badRequiredStringB (getField [("name", JSValue.str "alpha")] "description") = true)
           ∨ (e.field = "type"
              ∧ badTypeB (getField [("name", JSValue.str "alpha")] "type") = true)) := by
  refine ⟨rfl, ?_⟩
  exact C4_validation_errors "sops/alpha.md" "Body" [("name", JSValue.str "alpha")]
    (Or.inr (Or.inl rfl))

/-- C5: Round-trip — for every definition file whose frontmatter validates,
the loaded definition's body is the file's post-frontmatter content trimmed
of leading/trailing whitespace, and every declared metadata field is
preserved exactly: declared name, description, version, tool list and input
spec come through verbatim, an absent version defaults to "1.0.0", and an
absent kind defaults to agent. -/
theorem C5_loadSOP_roundTrip (fp content : String) (fields : List (String × JSValue))
    (sop : SOPDefinition)
    (h : loadSOP fp (.parsed (.obj fields) content) = .ok sop) :
    sop.body = jsTrim content
    ∧ sop.filepath = fp
    ∧ (∀ s : String, getField fields "name" = .str s → sop.name = s)
    ∧ (∀ s : String, getField fields "description" = .str s → sop.description = s)
    ∧ (∀ s : String, getField fields "version" = .str s → sop.version = s)
    ∧ (getField fields "version" = .undefined → sop.version = "1.0.0")
    ∧ (∀ xs : List JSValue, getField fields "tools" = .arr xs → sop.tools = xs)
    ∧ (∀ fs : List (String × JSValue), getField fields "inputs" = .obj fs →
        sop.inputs = .obj fs)
    ∧ (getField fields "type" = .undefined → sop.type = .agent)
    ∧ (getField fields "type" = .str "agent" → sop.type = .agent)
    ∧ (getField fields "type" = .str "orchestrator" → sop.type = .orchestrator) := by
  obtain ⟨fm, hv, hsop⟩ := loadSOP_ok_inv h
  have hobj : validateObj fields fp = .ok fm := hv
  obtain ⟨hn, _, hd, hver, htools, hinputs, hty⟩ := validateObj_ok_inv hobj
  subst hsop
  refine ⟨rfl, rfl, ?_, ?_, ?_, ?_, ?_, ?_, ?_, ?_, ?_⟩
  · intro s hs
    rw [hn] at hs
    cases hs
    rfl
  · intro s hs
    rw [hd] at hs
    cases hs
    rfl
  · intro s hs
    show fm.version.getD "1.0.0" = s
    rw [hver, optVersion, hs]
    rfl
  · intro hs
    show fm.version.getD "1.0.0" = "1.0.0"
    rw [hver, optVersion, hs]
    rfl
  · intro xs hs
    show fm.tools.getD [] = xs
    rw [htools, optTools, hs]
    rfl
  · intro fs hs
    show fm.inputs.getD (.obj []) = .obj fs
    rw [hinputs, optInputs, hs]
    rfl
  · intro hs
    show fm.type = .agent
    rw [hs, parseType] at hty
    exact (Except.ok.inj hty).symm
  · intro hs
    show fm.type = .agent
    rw [hs] at hty
    have heq : parseType (.str "agent") = Except.ok SOPType.agent := rfl
    rw [heq] at hty
    exact (Except.ok.inj hty).symm
  · intro hs
    show fm.type = .orchestrator
    rw [hs] at hty
    have heq : parseType (.str "orchestrator") = Except.ok SOPType.orchestrator := rfl
    rw [heq] at hty
    exact (Except.ok.inj hty).symm

/-- Witness for C5: a fully declared metadata file round-trips every field. -/
theorem C5_witness :
    ∃ sop : SOPDefinition, loadSOP "sops/beta.md" (.parsed fmBeta "Beta body") = .ok sop
    ∧ sop.body = jsTrim "Beta body"
    ∧ sop.name = "beta" ∧ sop.description = "Agent beta"
    ∧ sop.version = "2.0.0" ∧ sop.tools = [.str "search"] ∧ sop.type = .agent := by
  refine ⟨{ name := "beta", description := "Agent beta", version := "2.0.0",
            tools := [.str "search"],
            inputs := .obj [("topic", .obj [("type", .str "string"),
                                            ("description", .str "The topic")])],
            body := "Beta body", filepath := "sops/beta.md", type := .agent,
            zodSchema := generateZodSchema (some [("topic",
              .obj [("type", .str "string"), ("description", .str "The topic")])]) },
    rfl, ?_, ?_, ?_, ?_, ?_, ?_⟩
  · have h := C5_loadSOP_roundTrip "sops/beta.md" "Beta body"
      (match fmBeta with | .obj fs => fs | _ => []) _ rfl
    exact h.1
  · rfl
  · rfl
  · rfl
  · rfl
  · rfl

/-- C6 counterexample: the cache is keyed by name only, so two distinct
Definitions that share a name DO share a cached instance: creating for
`sopDupA` and then requesting for `sopDupB` (same name, different
description/body) returns the identical instance. This refutes the claim's
"for any two distinct Definitions, getOrCreate never returns the same cached
instance for both" as stated. -/
theorem C6_counterexample :
    ¬ sopDupA = sopDupB
    ∧ (getOrCreateAgent sopDupB (getOrCreateAgent sopDupA initCache).2).1 =
        (getOrCreateAgent sopDupA initCache).1 := by
  constructor
  · intro h
    have hdesc := congrArg SOPDefinition.description h
    simp [sopDupA, sopDupB] at hdesc
  · rfl

/-- C6 (amended): `getOrCreateAgent` is idempotent — every one of k repeated
calls for the same Definition returns the identical cached instance — and
for any two Definitions with distinct names (names are the cache key, unique
within a registry), the instances returned are never identical, starting
from any well-formed cache state. -/
theorem C6_cache_idempotent_and_distinct :
    (∀ (sop : SOPDefinition) (st : CacheState) (k : Nat),
        ∀ a ∈ (iterateGetOrCreate sop k st).1, a = (getOrCreateAgent sop st).1)
    ∧ (∀ (d1 d2 : SOPDefinition) (st : CacheState), CacheWF st → ¬ d1.name = d2.name →
        ¬ (getOrCreateAgent d2 (getOrCreateAgent d1 st).2).1 =
            (getOrCreateAgent d1 st).1) := by
  constructor
  · intro sop st k a ha
    exact iterateGetOrCreate_all_eq sop k st a ha
  · intro d1 d2 st hw hn
    exact getOrCreateAgent_distinct_names d1 d2 st hw hn

/-- Witness for C6: three calls for `sopDupA` from the empty cache all return
the identical instance, and `sopGamma` (a different name) never shares it. -/
theorem C6_witness :
    CacheWF initCache
    ∧ (∀ a ∈ (iterateGetOrCreate sopDupA 3 initCache).1,
        a = (getOrCreateAgent sopDupA initCache).1)
    ∧ ¬ sopDupA.name = sopGamma.name
    ∧ ¬ (getOrCreateAgent sopGamma (getOrCreateAgent sopDupA initCache).2).1 =
        (getOrCreateAgent sopDupA initCache).1 := by
  have hwf : CacheWF initCache := by
    constructor
    · intro p hp
      cases hp
    · exact List.Pairwise.nil
  have hname : ¬ sopDupA.name = sopGamma.name := by
    intro h
    simp [sopDupA, sopGamma] at h
  refine ⟨hwf, ?_, hname, ?_⟩
  · exact fun a ha => C6_cache_idempotent_and_distinct.1 sopDupA initCache 3 a ha
  · exact C6_cache_idempotent_and_distinct.2 sopDupA sopGamma initCache hwf hname

/-- C7 (code evidence): `generateZodSchema`'s own contract says it always
includes a required "task" string field, but a declared input field named
"task" overwrites the built-in entry: with
`task: \x7b type: string, required: false \x7d` declared, the synthesized
"task" field is optional, not required. Without such a field the built-in
required string task field is present. -/
theorem C7_task_override_evidence :
    lookupKey (generateZodSchema (some taskOverrideSpec)) "task" =
      some { base := .str, description := .str "overridden",
             defaultVal := none, optional := true }
    ∧ lookupKey (generateZodSchema none) "task" = some taskField
    ∧ taskField.optional = false
    ∧ taskField.base = .str := by
  exact ⟨rfl, rfl, rfl, rfl⟩

/-- C8: A synthesized field validator is optional exactly when the declared
`required` flag is literally `false`; a declared default is attached
verbatim; every declared field name is structurally present in the
synthesized validator; and a non-optional field accepts omission only via
the default mechanism (if omitting it parses successfully, the produced
value is a declared default). -/
theorem C8_optional_default_spec :
    (∀ d : JSValue, (fieldOf d).optional = true ↔ getProp d "required" = .bool false)
    ∧ (∀ d w : JSValue, getProp d "default" = w → ¬ w = .undefined →
        (fieldOf d).defaultVal = some w)
    ∧ (∀ (entries : List (String × JSValue)) (nm : String) (dv : JSValue),
        (nm, dv) ∈ entries →
        (lookupKey (generateZodSchema (some entries)) nm).isSome = true)
    ∧ (∀ (d r : JSValue), (fieldOf d).optional = false →
        fieldParse (fieldOf d) .undefined = some r →
        (fieldOf d).defaultVal = some r) := by
  refine ⟨?_, ?_, ?_, ?_⟩
  · intro d
    show (match getProp d "required" with
          | .bool false => true
          | _ => false) = true ↔ getProp d "required" = .bool false
    cases hr : getProp d "required"
    case bool b => cases b <;> simp
    all_goals simp
  · intro d w hw hund
    show (match getProp d "default" with
          | .undefined => none
          | w => some w) = some w
    rw [hw]
    cases w
    case undefined => exact absurd rfl hund
    all_goals rfl
  · intro entries nm dv hmem
    have hlk := lookupKey_keyFold (fun p : String × JSValue => p.1)
      (fun p => fieldOf p.2) entries [("task", taskField)] nm
    have : generateZodSchema (some entries) =
        keyFold (fun p : String × JSValue => p.1) (fun p => fieldOf p.2)
          entries [("task", taskField)] := rfl
    rw [this, hlk]
    cases hf : entries.reverse.find? (fun p => p.1 == nm) with
    | none =>
      exfalso
      have hex : ∃ x, x ∈ entries.reverse ∧ (x.1 == nm) = true :=
        ⟨(nm, dv), List.mem_reverse.mpr hmem, beq_self_eq_true nm⟩
      have hsome := List.find?_isSome.mpr hex
      rw [hf] at hsome
      cases hsome
    | some q => rfl
  · intro d r hopt hparse
    have hparse1 : (if (fieldOf d).optional = true then some JSValue.undefined
        else match (fieldOf d).defaultVal with
          | some dv => if baseAccepts (fieldOf d).base dv = true then some dv else none
          | none => none) = some r := hparse
    rw [hopt] at hparse1
    simp only [Bool.false_eq_true, if_false] at hparse1
    cases hd : (fieldOf d).defaultVal with
    | none =>
      rw [hd] at hparse1
      cases hparse1
    | some w =>
      rw [hd] at hparse1
      have hparse2 : (if baseAccepts (fieldOf d).base w = true then some w else none) =
          some r := hparse1
      by_cases hacc : baseAccepts (fieldOf d).base w = true
      · rw [if_pos hacc] at hparse2
        exact hparse2
      · rw [if_neg hacc] at hparse2
        cases hparse2

/-- Witness for C8: a field with `required: false` is optional, a declared
default is attached verbatim, and a declared field name is present. -/
theorem C8_witness :
    ((fieldOf optionalDef).optional = true ↔ getProp optionalDef "required" = .bool false)
    ∧ (fieldOf defaultDef).defaultVal = some (.num 3)
    ∧ (lookupKey (generateZodSchema (some [("count", defaultDef)])) "count").isSome = true := by
  refine ⟨C8_optional_default_spec.1 optionalDef, ?_, ?_⟩
  · exact C8_optional_default_spec.2.1 defaultDef (.num 3) rfl (by intro h; cases h)
  · exact C8_optional_default_spec.2.2.1 [("count", defaultDef)] "count" defaultDef
      (List.mem_singleton.mpr rfl)

/-- C9: An input field declared with enum kind but lacking a non-empty
values list degrades to a plain string validator (synthesis never fails);
with a non-empty list of string values declared, the field's validator
accepts exactly the declared value set. -/
theorem C9_enum_schema_spec :
    (∀ d : JSValue, getProp d "type" = .str "enum" →
        (getProp d "values" = .undefined ∨ getProp d "values" = .null
          ∨ getProp d "values" = .arr []) →
        (fieldOf d).base = .str)
    ∧ (∀ (d : JSValue) (strs : List String), getProp d "type" = .str "enum" →
        getProp d "values" = .arr (strs.map .str) → ¬ strs = [] →
        (fieldOf d).base = .enumVals (strs.map .str)
        ∧ ∀ v : JSValue, baseAccepts (fieldOf d).base v = true ↔
            ∃ s, s ∈ strs ∧ v = .str s) := by
  constructor
  · intro d hty hvals
    have hbase : baseOf d = enumBase (getProp d "values") := by
      rw [baseOf, hty]
      rfl
    show baseOf d = .str
    rcases hvals with hv | hv | hv <;> rw [hbase, hv] <;> rfl
  · intro d strs hty hvals hne
    have hbase : baseOf d = enumBase (getProp d "values") := by
      rw [baseOf, hty]
      rfl
    have hlen : 0 < (strs.map JSValue.str).length := by
      rw [List.length_map]
      exact List.length_pos.mpr hne
    have hbase2 : (fieldOf d).base = .enumVals (strs.map .str) := by
      show baseOf d = _
      rw [hbase, hvals, enumBase, if_pos hlen]
    refine ⟨hbase2, ?_⟩
    intro v
    rw [hbase2]
    cases v
    case str s =>
      constructor
      · intro h
        rcases List.any_eq_true.mp h with ⟨w, hw, hws⟩
        rcases List.mem_map.mp hw with ⟨t, ht, rfl⟩
        have hts : t = s := of_decide_eq_true hws
        exact ⟨t, ht, by rw [hts]⟩
      · rintro ⟨t, ht, hv⟩
        cases hv
        exact List.any_eq_true.mpr
          ⟨JSValue.str s, List.mem_map.mpr ⟨s, ht, rfl⟩, decide_eq_true rfl⟩
    all_goals simp [baseAccepts]

/-- Witness for C9: an enum without values degrades to a string validator;
one with values \x5b"low","high"\x5d accepts "low" and rejects "mid". -/
theorem C9_witness :
    (fieldOf enumDefNoValues).base = .str
    ∧ (fieldOf enumDef).base = .enumVals [.str "low", .str "high"]
    ∧ baseAccepts (fieldOf enumDef).base (.str "low") = true
    ∧ ¬ baseAccepts (fieldOf enumDef).base (.str "mid") = true := by
  have h1 := (C9_enum_schema_spec).1 enumDefNoValues rfl (Or.inl rfl)
  have h2 := (C9_enum_schema_spec).2 enumDef ["low", "high"] rfl rfl (by intro h; cases h)
  refine ⟨h1, h2.1, ?_, ?_⟩
  · exact (h2.2 (.str "low")).mpr ⟨"low", by simp, rfl⟩
  · intro h
    rcases (h2.2 (.str "mid")).mp h with ⟨s, hs, heq⟩
    cases heq
    simp at hs

/-- C10: When several loadable agent-kind files declare the same name, each
later `registry.set` silently overwrites the earlier entry: looking up any
name yields the definition from the file processed last in enumeration
order; the registry has exactly one entry per distinct declared name, so
with a duplicated name it has strictly fewer entries than the number of
loadable agent-kind files; and every log line the scan emits is the
empty-directory warning, a load-failure line, or a name/filename mismatch
warning — none reports the collision. -/
theorem C10_duplicate_names_last_wins (d : String) (entries : List DirEntry)
    (res : DiscoverResult) (h : discoverAgents d (.dir entries) = .ok res) :
    (∀ n : String, lookupKey res.registry n =
        ((mdFilter entries).filterMap (loadedAgent d)).reverse.find?
          (fun s => s.name == n))
    ∧ res.registry.length =
        (((mdFilter entries).filterMap (loadedAgent d)).map (fun s => s.name)).toFinset.card
    ∧ (¬ (((mdFilter entries).filterMap (loadedAgent d)).map (fun s => s.name)).Nodup →
        res.registry.length < ((mdFilter entries).filterMap (loadedAgent d)).length)
    ∧ (∀ line ∈ res.logs, line = .warnNoFiles d
        ∨ ∃ e ∈ mdFilter entries, line ∈ entryLogs d e) := by
  by_cases hemp : (mdFilter entries).isEmpty = true
  · have hres : res = { registry := [], logs := [.warnNoFiles d] } := by
      rw [show discoverAgents d (.dir entries) =
          .ok { registry := [], logs := [.warnNoFiles d] } by simp [discoverAgents, hemp]]
        at h
      exact (Except.ok.inj h).symm
    have hnil : (mdFilter entries).filterMap (loadedAgent d) = [] := by
      rw [List.isEmpty_iff.mp hemp]
      rfl
    subst hres
    refine ⟨?_, ?_, ?_, ?_⟩
    · intro n
      rw [hnil]
      rfl
    · rw [hnil]
      rfl
    · intro hnd
      rw [hnil] at hnd
      exact absurd List.nodup_nil hnd
    · intro line hline
      rcases List.mem_singleton.mp hline with rfl
      exact Or.inl rfl
  · have hres : res =
        { registry := keyFold (fun s : SOPDefinition => s.name) (fun s => s)
            ((mdFilter entries).filterMap (loadedAgent d)) [],
          logs := (mdFilter entries).flatMap (entryLogs d) } := by
      have hres0 : discoverAgents d (.dir entries) =
          .ok ((mdFilter entries).foldl (discoverStep d) { registry := [], logs := [] }) := by
        simp [discoverAgents, hemp]
      rw [discover_foldl d (mdFilter entries) { registry := [], logs := [] }] at hres0
      rw [hres0] at h
      exact (Except.ok.inj h).symm
    subst hres
    refine ⟨?_, ?_, ?_, ?_⟩
    · intro n
      have hlk := lookupKey_keyFold (fun s : SOPDefinition => s.name) (fun s => s)
        ((mdFilter entries).filterMap (loadedAgent d)) [] n
      rw [show lookupKey ([] : List (String × SOPDefinition)) n = none from rfl] at hlk
      rw [Option.or_none] at hlk
      rw [hlk]
      exact Option.map_id'
    · exact length_keyFold_nil _ _ _
    · intro hnd
      have hlen := length_keyFold_nil (fun s : SOPDefinition => s.name) (fun s => s)
        ((mdFilter entries).filterMap (loadedAgent d))
      have hlt := toFinset_card_lt_of_not_nodup hnd
      rw [List.length_map] at hlt
      exact hlen ▸ hlt
    · intro line hline
      rcases List.mem_flatMap.mp hline with ⟨e, he, hle⟩
      exact Or.inr ⟨e, he, hle⟩

/-- Witness for C10: two loadable agent files both named "dup"; the registry
keeps only the later file's definition (its body is "second body") and has a
single entry, and the scan logs contain no collision diagnostic (only the
second file's name/filename mismatch warning). -/
theorem C10_witness :
    ∃ res : DiscoverResult, discoverAgents "sops" (.dir [entDup1, entDup2]) = .ok res
    ∧ (lookupKey res.registry "dup" =
        ((mdFilter [entDup1, entDup2]).filterMap (loadedAgent "sops")).reverse.find?
          (fun s => s.name == "dup"))
    ∧ ((mdFilter [entDup1, entDup2]).filterMap (loadedAgent "sops")).length = 2
    ∧ res.registry.length < 2
    ∧ (∀ line ∈ res.logs, line = .warnNoFiles "sops"
        ∨ ∃ e ∈ mdFilter [entDup1, entDup2], line ∈ entryLogs "sops" e) := by
  cases hres : discoverAgents "sops" (.dir [entDup1, entDup2]) with
  | error err => cases hres
  | ok res =>
    obtain ⟨hlast, _, hfewer, hlogs⟩ := C10_duplicate_names_last_wins "sops"
      [entDup1, entDup2] res hres
    refine ⟨res, rfl, hlast "dup", by decide, ?_, hlogs⟩
    have hnd : ¬ ((((mdFilter [entDup1, entDup2]).filterMap (loadedAgent "sops")).map
        (fun s => s.name)).Nodup) := by
      rw [show (((mdFilter [entDup1, entDup2]).filterMap (loadedAgent "sops")).map
          (fun s => s.name)) = ["dup", "dup"] from rfl]
      decide
    have := hfewer hnd
    rwa [show ((mdFilter [entDup1, entDup2]).filterMap (loadedAgent "sops")).length = 2
      from rfl] at this

end SopAgents
